import Mathlib

/-!
A verification development for the pro_cache browser cache / cross-tab
synchronization runtime. The TypeScript sources are shallowly embedded:

* `DBState` models the persistent store `IndexedDBCache` (db.ts, bucketed
  version): a `timestamps` namespace (route -> server timestamp) and a
  `cacheStore` namespace (bucket -> specific key -> entry).
* `CMState` models `CacheManager` (cache.ts): in-memory bucketed cache
  mirroring the persistent store.
* `WSState` and `LeaderState` model the state of `WebSocketClient`
  (socket.ts) relevant to the upstream socket lifecycle and the leader
  message handler.
* `MultiTab` models several tabs, the shared leader slot in localStorage,
  and in-flight leader-claim broadcasts.

Key/value namespaces are association lists; JS `Map`/object/IndexedDB puts
replace in place and append new keys at the end, which `aset` mirrors.
Machine numbers are `Int` (timestamps are ms since epoch; no overflow is
relevant at these magnitudes). Fields that can be `undefined` at runtime are
`Option`s; in particular the entry timestamp is an `Option Int` because the
call sites in client.ts omit the `timestamp` argument of `CacheManager.set`.
-/

namespace ProCache

section Store

variable {κ : Type} [DecidableEq κ] {α : Type}

/-- Lookup in an association list (JS `Map.get` / object index / IDB `get`). -/
def aget : List (κ × α) → κ → Option α
  | [], _ => none
  | p :: l, k => if p.1 = k then some p.2 else aget l k

/-- Insert-or-replace (JS `Map.set` / object assignment / IDB `put`):
replaces in place, appends new keys at the end. -/
def aset : List (κ × α) → κ → α → List (κ × α)
  | [], k, v => [(k, v)]
  | p :: l, k, v => if p.1 = k then (k, v) :: l else p :: aset l k v

/-- Delete a key (JS `Map.delete` / IDB `delete`). -/
def adel : List (κ × α) → κ → List (κ × α)
  | [], _ => []
  | p :: l, k => if p.1 = k then adel l k else p :: adel l k

theorem aget_aset_self (l : List (κ × α)) (k : κ) (v : α) :
    aget (aset l k v) k = some v := by
  induction l with
  | nil => simp [aset, aget]
  | cons p l ih =>
    by_cases h : p.1 = k
    · simp [aset, aget, h]
    · simp [aset, aget, h, ih]

theorem aget_aset_of_ne (l : List (κ × α)) {k k' : κ} (v : α) (h : k' ≠ k) :
    aget (aset l k v) k' = aget l k' := by
  have h2 : k ≠ k' := h.symm
  induction l with
  | nil => simp [aset, aget, h2]
  | cons p l ih =>
    by_cases hp : p.1 = k
    · have hp' : p.1 ≠ k' := by rw [hp]; exact h2
      simp [aset, aget, hp, hp', h2]
    · simp [aset, aget, hp, ih]

theorem aset_self (l : List (κ × α)) {k : κ} {v : α} (h : aget l k = some v) :
    aset l k v = l := by
  induction l with
  | nil => simp [aget] at h
  | cons p l ih =>
    cases p with
    | mk k0 v0 =>
      by_cases hp : k0 = k
      · subst hp
        have h2 : v0 = v := by simpa [aget] using h
        subst h2
        simp [aset]
      · have h2 : aget l k = some v := by simpa [aget, hp] using h
        simp [aset, hp, ih h2]

theorem aget_adel_self (l : List (κ × α)) (k : κ) : aget (adel l k) k = none := by
  induction l with
  | nil => simp [adel, aget]
  | cons p l ih =>
    by_cases h : p.1 = k
    · simp [adel, h, ih]
    · simp [adel, aget, h, ih]

theorem aget_adel_of_ne (l : List (κ × α)) {k k' : κ} (h : k' ≠ k) :
    aget (adel l k) k' = aget l k' := by
  induction l with
  | nil => simp [adel]
  | cons p l ih =>
    by_cases hp : p.1 = k
    · have hp' : p.1 ≠ k' := by rw [hp]; exact h.symm
      simp [adel, aget, hp, hp', h.symm, ih]
    · simp [adel, aget, hp, ih]

end Store

/-! ## Data model -/

/-- A cache entry (`CacheItem` in cache.ts / `CachedData` in db.ts):
`data`, absolute `expiry`, and the server `timestamp`. The source declares
`timestamp : number`, but the call sites of `CacheManager.set` in client.ts
pass no timestamp argument, so at runtime the field can be `undefined`;
the model therefore uses `Option Int`. -/
structure CacheItem where
  data : String
  expiry : Int
  timestamp : Option Int
deriving DecidableEq, Repr

/-- JS `a >= b` where either operand may be `undefined`: a comparison
involving `undefined` is `false` (NaN comparison). -/
def jsGe : Option Int → Option Int → Bool
  | some a, some b => decide (a ≥ b)
  | _, _ => false

/-! ## Persistent Store: IndexedDBCache (db.ts, bucketed version) -/

/-- The two IndexedDB object stores: `timestamps` (route -> timestamp) and
`cache` (bucket -> map of specific key -> entry). The failure path (backing
store unreachable, caught and logged) is not modelled: all claims concern the
reachable-store behaviour. -/
structure DBState where
  timestamps : List (String × Int)
  cacheStore : List (String × List (String × CacheItem))
deriving DecidableEq, Repr

def DBState.empty : DBState := ⟨[], []⟩

/-- `IndexedDBCache.getTimestamp` (db.ts). -/
def DBState.getTimestamp (db : DBState) (route : String) : Option Int :=
  aget db.timestamps route

/-- `IndexedDBCache.setTimestamp` (db.ts:79-103): latest-wins, strict —
writes only if no timestamp is stored or the incoming one is greater. -/
def DBState.setTimestamp (db : DBState) (route : String) (timestamp : Int) : DBState :=
  match aget db.timestamps route with
  | none => { db with timestamps := aset db.timestamps route timestamp }
  | some current =>
    if timestamp > current then
      { db with timestamps := aset db.timestamps route timestamp }
    else db

/-- `IndexedDBCache.getCache` (db.ts:218-236): fetch the bucket map
(or `{}`), index by the specific key. -/
def DBState.getCache (db : DBState) (bucket key : String) : Option CacheItem :=
  aget ((aget db.cacheStore bucket).getD []) key

/-- `IndexedDBCache.setCache` (db.ts:178-213): read-modify-write of the
bucket map with latest-wins per entry timestamp (`>=` keeps the incoming
entry on ties; a comparison involving `undefined` is false, so the write is
skipped). -/
def DBState.setCache (db : DBState) (bucket key : String) (item : CacheItem) : DBState :=
  let bucketMap := (aget db.cacheStore bucket).getD []
  match aget bucketMap key with
  | none => { db with cacheStore := aset db.cacheStore bucket (aset bucketMap key item) }
  | some existing =>
    if jsGe item.timestamp existing.timestamp then
      { db with cacheStore := aset db.cacheStore bucket (aset bucketMap key item) }
    else db

/-- `IndexedDBCache.deleteCache` (db.ts:261-274): drops the whole bucket. -/
def DBState.deleteCache (db : DBState) (bucket : String) : DBState :=
  { db with cacheStore := adel db.cacheStore bucket }

/-- `IndexedDBCache.clearCache` (db.ts). -/
def DBState.clearCache (db : DBState) : DBState :=
  { db with cacheStore := [] }

/-- `IndexedDBCache.clearAll` (db.ts): clears both stores. -/
def DBState.clearAll (_db : DBState) : DBState := ⟨[], []⟩

/-- `IndexedDBCache.getAllBucketKeys` (db.ts:316-329): keys of the cache
store. -/
def DBState.getAllBucketKeys (db : DBState) : List String :=
  db.cacheStore.map (fun p => p.1)

/-- A session-long sequence of `setTimestamp` operations. -/
def DBState.runSetTimestamps (db : DBState) (ops : List (String × Int)) : DBState :=
  ops.foldl (fun d op => d.setTimestamp op.1 op.2) db

theorem setTimestamp_mono (db : DBState) (route : String) (ts : Int) (B : String)
    {t : Int} (h : db.getTimestamp B = some t) :
    ∃ u, (db.setTimestamp route ts).getTimestamp B = some u ∧ t ≤ u := by
  rw [DBState.getTimestamp] at h
  unfold DBState.setTimestamp
  by_cases hr : B = route
  · subst hr
    rw [h]
    by_cases hgt : ts > t
    · exact ⟨ts, by simp [hgt, DBState.getTimestamp, aget_aset_self], le_of_lt hgt⟩
    · exact ⟨t, by simp [hgt, DBState.getTimestamp, h], le_refl t⟩
  · cases hcur : aget db.timestamps route with
    | none =>
      exact ⟨t, by simp [DBState.getTimestamp, aget_aset_of_ne _ _ hr, h], le_refl t⟩
    | some current =>
      by_cases hgt : ts > current
      · exact ⟨t, by simp [hgt, DBState.getTimestamp, aget_aset_of_ne _ _ hr, h], le_refl t⟩
      · exact ⟨t, by simp [hgt, DBState.getTimestamp, h], le_refl t⟩

theorem runSetTimestamps_mono (db : DBState) (ops : List (String × Int)) (B : String)
    {t : Int} (h : db.getTimestamp B = some t) :
    ∃ u, (db.runSetTimestamps ops).getTimestamp B = some u ∧ t ≤ u := by
  induction ops generalizing db t with
  | nil => exact ⟨t, h, le_refl t⟩
  | cons op ops ih =>
    obtain ⟨u, hu, htu⟩ := setTimestamp_mono db op.1 op.2 B h
    obtain ⟨w, hw, huw⟩ := ih (db.setTimestamp op.1 op.2) hu
    exact ⟨w, hw, le_trans htu huw⟩

/-- Claim C2: `PS.setTimestamp(B, ts)` writes only when `ts` is strictly
greater than the stored timestamp (or none is stored), so the values
returned by `PS.getTimestamp(B)` across any sequence of `setTimestamp`
operations in one session are monotonically non-decreasing. -/
theorem claim2_setTimestamp_latest_wins_monotone :
    (∀ (db : DBState) (route : String) (ts current : Int),
      db.getTimestamp route = some current → ¬ ts > current →
      db.setTimestamp route ts = db) ∧
    (∀ (db : DBState) (ops : List (String × Int)) (B : String) (t u : Int),
      db.getTimestamp B = some t →
      (db.runSetTimestamps ops).getTimestamp B = some u →
      t ≤ u) := by
  constructor
  · intro db route ts current h hle
    unfold DBState.setTimestamp
    rw [DBState.getTimestamp] at h
    rw [h]
    simp [hle]
  · intro db ops B t u h hu
    obtain ⟨w, hw, htw⟩ := runSetTimestamps_mono db ops B h
    rw [hu] at hw
    cases hw
    exact htw

/-- Witness for C2 at a concrete store: the stale write `setTimestamp B 40`
is dropped, and after the session `[B:=100, B:=70]` the observed value 100
is at least the initial 50. -/
theorem claim2_witness :
    (DBState.setTimestamp ⟨[("B", 50)], []⟩ "B" 40 = ⟨[("B", 50)], []⟩) ∧
    (50 : Int) ≤ 100 := by
  constructor
  · exact claim2_setTimestamp_latest_wins_monotone.1 ⟨[("B", 50)], []⟩ "B" 40 50
      (by decide) (by decide)
  · exact claim2_setTimestamp_latest_wins_monotone.2 ⟨[("B", 50)], []⟩ [("B", 100), ("B", 70)]
      "B" 50 100 (by decide) (by decide)

/-! ## Broadcast messages (cross-tab, over BroadcastChannel) -/

/-- Connection status of the upstream socket (socket.ts). -/
inductive ConnStatus where
  | disconnected
  | connecting
  | connected
  | error
  | offline
deriving DecidableEq, Repr

/-- The cross-tab broadcast messages the claims mention (`CacheMessage` in
cache.ts and `WSMessage` in socket.ts, restricted to the constructors the
theorems below consume). -/
inductive BMsg where
  | cacheSet (bucket key : String) (data : String) (expiry : Int) (timestamp : Option Int)
  | cacheInvalidate (bucket : String)
  | wsInvalidate (key : String) (timestamp : Int)
  | wsInvalidateAll (timestamp : Int)
  | wsStatus (status : ConnStatus)
  | wsCacheEnabled (enabled explicitlyClosed : Bool)
  | wsCustom
deriving DecidableEq, Repr

def BMsg.isWsInvalidate : BMsg → Bool
  | .wsInvalidate _ _ => true
  | _ => false

def BMsg.isWsInvalidateAll : BMsg → Bool
  | .wsInvalidateAll _ => true
  | _ => false

/-! ## Cache Manager (cache.ts) -/

/-- The tab-local state of `CacheManager`: the in-memory nested map
`cache : Bucket -> SpecificKey -> CacheItem` plus the persistent store it
mirrors. -/
structure CMState where
  mem : List (String × List (String × CacheItem))
  db : DBState
deriving DecidableEq, Repr

/-- `CacheManager.getBucketMap` (cache.ts:146-151) creates an empty bucket
map in memory when the bucket is absent. -/
def ensureBucket (mem : List (String × List (String × CacheItem))) (bucket : String) :
    List (String × List (String × CacheItem)) :=
  if (aget mem bucket).isSome then mem else aset mem bucket []

/-- Memory lookup of one entry. -/
def CMState.memEntry (cm : CMState) (bucket key : String) : Option CacheItem :=
  aget ((aget cm.mem bucket).getD []) key

/-- `CacheManager.setLocal` (cache.ts:153-162): latest-wins in memory —
the incoming item is kept iff there is no existing entry or
`item.timestamp >= existing.timestamp` (false when a side is undefined). -/
def CMState.setLocal (cm : CMState) (bucket key : String) (item : CacheItem) : CMState :=
  let mem0 := ensureBucket cm.mem bucket
  let bucketMap := (aget mem0 bucket).getD []
  match aget bucketMap key with
  | none => { cm with mem := aset mem0 bucket (aset bucketMap key item) }
  | some existing =>
    if jsGe item.timestamp existing.timestamp then
      { cm with mem := aset mem0 bucket (aset bucketMap key item) }
    else { cm with mem := mem0 }

/-- `CacheManager.set` (cache.ts:167-191): reject non-positive TTL, compute
`expiry = now + ttl*1000`, update memory with latest-wins, persist through
`IndexedDBCache.setCache`, broadcast `cache-set`. The `data === null`
rejection is not modelled: `data` is a `String` here and the claims never
pass null. `timestamp` is an `Option Int` because the call sites in
client.ts omit the argument. -/
def CMState.set (cm : CMState) (bucket key : String) (data : String)
    (ttlSeconds : Int) (timestamp : Option Int) (now : Int) : CMState × List BMsg :=
  if ttlSeconds ≤ 0 then (cm, [])
  else
    let expiry := now + ttlSeconds * 1000
    let item : CacheItem := ⟨data, expiry, timestamp⟩
    let cm1 := cm.setLocal bucket key item
    let cm2 : CMState := { cm1 with db := cm1.db.setCache bucket key item }
    (cm2, [BMsg.cacheSet bucket key data expiry timestamp])

/-- `CacheManager.get` (cache.ts:196-219): memory hit, else restore from the
persistent store into memory; then evict from memory and miss when
`now > expiry`; the persistent store is untouched by the expiry eviction. -/
def CMState.get (cm : CMState) (bucket key : String) (now : Int) :
    Option String × CMState :=
  let mem0 := ensureBucket cm.mem bucket
  let bucketMap := (aget mem0 bucket).getD []
  match aget bucketMap key with
  | some item =>
    if now > item.expiry then
      (none, { cm with mem := aset mem0 bucket (adel bucketMap key) })
    else (some item.data, { cm with mem := mem0 })
  | none =>
    match cm.db.getCache bucket key with
    | some item =>
      let m1 := aset bucketMap key item
      if now > item.expiry then
        (none, { cm with mem := aset mem0 bucket (adel m1 key) })
      else (some item.data, { cm with mem := aset mem0 bucket m1 })
    | none => (none, { cm with mem := mem0 })

/-- `CacheManager.invalidateLocal` (cache.ts:257-263): only when the bucket
is present in memory, drop it from memory and delete it from the persistent
store. -/
def CMState.invalidateLocal (cm : CMState) (bucket : String) : CMState :=
  if (aget cm.mem bucket).isSome then
    ⟨adel cm.mem bucket, cm.db.deleteCache bucket⟩
  else cm

/-- `CacheManager.invalidate` (cache.ts:268-276): local invalidation plus a
`cache-invalidate` broadcast. -/
def CMState.invalidate (cm : CMState) (bucket : String) : CMState × List BMsg :=
  (cm.invalidateLocal bucket, [BMsg.cacheInvalidate bucket])

/-- `CacheManager.clear` (cache.ts:278-281): clears memory and the cache
store (not the timestamp store). -/
def CMState.clear (cm : CMState) : CMState :=
  ⟨[], cm.db.clearCache⟩

theorem memEntry_bucket_isSome {cm : CMState} {bucket key : String} {item : CacheItem}
    (h : cm.memEntry bucket key = some item) : (aget cm.mem bucket).isSome := by
  rw [CMState.memEntry] at h
  cases hb : aget cm.mem bucket with
  | none => rw [hb] at h; simp [aget] at h
  | some m => simp

theorem ensureBucket_of_isSome {mem : List (String × List (String × CacheItem))}
    {bucket : String} (h : (aget mem bucket).isSome) : ensureBucket mem bucket = mem := by
  simp [ensureBucket, h]

theorem setLocal_skip (item : CacheItem) {cm : CMState} {bucket key : String}
    {eMem : CacheItem} (h : cm.memEntry bucket key = some eMem)
    (hts : jsGe item.timestamp eMem.timestamp = false) :
    cm.setLocal bucket key item = cm := by
  have hb := memEntry_bucket_isSome h
  rw [CMState.memEntry] at h
  simp [CMState.setLocal, ensureBucket_of_isSome hb, h, hts]

theorem dbSetCache_skip (item : CacheItem) {db : DBState} {bucket key : String}
    {eDb : CacheItem} (h : db.getCache bucket key = some eDb)
    (hts : jsGe item.timestamp eDb.timestamp = false) :
    db.setCache bucket key item = db := by
  rw [DBState.getCache] at h
  simp [DBState.setCache, h, hts]

/-- Claim C4: an entry written with timestamp `t` is not replaced by a
subsequent write of the same `(bucket, specificKey)` with a strictly older
timestamp, neither in CacheManager memory nor in the persistent store. -/
theorem claim4_stale_write_ignored :
    ∀ (cm : CMState) (bucket key data : String) (ttl now ts tMem tDb : Int)
      (eMem eDb : CacheItem),
      cm.memEntry bucket key = some eMem → eMem.timestamp = some tMem →
      cm.db.getCache bucket key = some eDb → eDb.timestamp = some tDb →
      ts < tMem → ts < tDb →
      (cm.set bucket key data ttl (some ts) now).1.memEntry bucket key = some eMem ∧
      (cm.set bucket key data ttl (some ts) now).1.db.getCache bucket key = some eDb := by
  intro cm bucket key data ttl now ts tMem tDb eMem eDb hMem hMemTs hDb hDbTs h1 h2
  by_cases httl : ttl ≤ 0
  · simp [CMState.set, httl, hMem, hDb]
  · have hge1 : jsGe (some ts) eMem.timestamp = false := by
      rw [hMemTs]; simp [jsGe]; omega
    have hge2 : jsGe (some ts) eDb.timestamp = false := by
      rw [hDbTs]; simp [jsGe]; omega
    have hsl := setLocal_skip ⟨data, now + ttl * 1000, some ts⟩ hMem hge1
    have hdb := dbSetCache_skip ⟨data, now + ttl * 1000, some ts⟩ hDb hge2
    simp [CMState.set, httl, hsl, hdb, hMem, hDb]

def s2cm1 : CMState :=
  ((⟨[], DBState.empty⟩ : CMState).set "/u/{id}" "/u/1" "A" 60 (some 100) 0).1

/-- Witness for C4: the S2 scenario — after seeding `A` at timestamp 100, a
write of `B` at timestamp 90 replaces nothing (memory and store keep `A`),
and the read returns `A`. -/
theorem claim4_witness :
    ((s2cm1.set "/u/{id}" "/u/1" "B" 60 (some 90) 0).1.memEntry "/u/{id}" "/u/1"
        = some ⟨"A", 60000, some 100⟩ ∧
     (s2cm1.set "/u/{id}" "/u/1" "B" 60 (some 90) 0).1.db.getCache "/u/{id}" "/u/1"
        = some ⟨"A", 60000, some 100⟩) ∧
    ((s2cm1.set "/u/{id}" "/u/1" "B" 60 (some 90) 0).1.get "/u/{id}" "/u/1" 1000).1
        = some "A" := by
  refine ⟨claim4_stale_write_ignored s2cm1 "/u/{id}" "/u/1" "B" 60 0 90 100 100
    ⟨"A", 60000, some 100⟩ ⟨"A", 60000, some 100⟩
    (by decide) (by decide) (by decide) (by decide) (by decide) (by decide), by decide⟩

theorem memEntry_none_bucketMap {cm : CMState} {bucket key : String}
    (h : cm.memEntry bucket key = none) :
    aget ((aget (ensureBucket cm.mem bucket) bucket).getD []) key = none := by
  rw [CMState.memEntry] at h
  by_cases hb : (aget cm.mem bucket).isSome
  · rw [ensureBucket_of_isSome hb]; exact h
  · cases hb2 : aget cm.mem bucket with
    | none => simp [ensureBucket, hb2, aget_aset_self, aget]
    | some m => rw [hb2] at hb; simp at hb

/-- Claim C9 (amended): when `CM.get` finds an entry — in memory, or loaded
from the persistent store — whose expiry is in the past, the entry is evicted
from memory and the call returns a miss, but the persistent store is left
untouched: the TTL-expiry eviction is NOT mirrored in PS (only bucket
invalidation and clear are). -/
theorem claim9_expiry_evicts_memory_only :
    (∀ (cm : CMState) (bucket key : String) (now : Int) (item : CacheItem),
      cm.memEntry bucket key = some item → now > item.expiry →
      (cm.get bucket key now).1 = none ∧
      (cm.get bucket key now).2.memEntry bucket key = none ∧
      (cm.get bucket key now).2.db = cm.db) ∧
    (∀ (cm : CMState) (bucket key : String) (now : Int) (item : CacheItem),
      cm.memEntry bucket key = none → cm.db.getCache bucket key = some item →
      now > item.expiry →
      (cm.get bucket key now).1 = none ∧
      (cm.get bucket key now).2.memEntry bucket key = none ∧
      (cm.get bucket key now).2.db = cm.db) := by
  constructor
  · intro cm bucket key now item hMem hExp
    have hb := memEntry_bucket_isSome hMem
    rw [CMState.memEntry] at hMem
    simp [CMState.get, ensureBucket_of_isSome hb, hMem, hExp, CMState.memEntry,
      aget_aset_self, aget_adel_self]
  · intro cm bucket key now item hMem hDb hExp
    have hbm := memEntry_none_bucketMap hMem
    rw [DBState.getCache] at hDb
    simp [CMState.get, hbm, DBState.getCache, hDb, hExp, CMState.memEntry,
      aget_aset_self, aget_adel_self]

def c9item : CacheItem := ⟨"v", 100, some 10⟩

def c9cm : CMState := ⟨[("B", [("k", c9item)])], ⟨[], [("B", [("k", c9item)])]⟩⟩

/-- Counterexample to C9 as stated: at `now = 200` the expired entry is
evicted from memory and the read misses, but the persistent store still
holds the entry, so the removal is not mirrored in PS. -/
theorem claim9_counterexample :
    ((c9cm.get "B" "k" 200).1 = none ∧
     (c9cm.get "B" "k" 200).2.memEntry "B" "k" = none) ∧
    (c9cm.get "B" "k" 200).2.db.getCache "B" "k" = some c9item := by decide

/-- Witness for the amended C9 at a concrete state: memory-hit path and
store-restore path both evict only from memory. -/
theorem claim9_witness :
    ((c9cm.get "B" "k" 200).1 = none ∧
     (c9cm.get "B" "k" 200).2.memEntry "B" "k" = none ∧
     (c9cm.get "B" "k" 200).2.db = c9cm.db) ∧
    (((⟨[], c9cm.db⟩ : CMState).get "B" "k" 200).1 = none ∧
     ((⟨[], c9cm.db⟩ : CMState).get "B" "k" 200).2.memEntry "B" "k" = none ∧
     ((⟨[], c9cm.db⟩ : CMState).get "B" "k" 200).2.db = c9cm.db) := by
  constructor
  · exact claim9_expiry_evicts_memory_only.1 c9cm "B" "k" 200 c9item (by decide) (by decide)
  · exact claim9_expiry_evicts_memory_only.2 ⟨[], c9cm.db⟩ "B" "k" 200 c9item
      (by decide) (by decide) (by decide)

/-! ## Fetch Orchestrator: write-back step (client.ts) -/

/-- Fetch configuration bits consumed by the write-back step. -/
structure FetchCfg where
  cachingEnabled : Bool
  cacheWritesOffline : Bool
  hasGetTimestamp : Bool
deriving DecidableEq, Repr

/-- The cache write-back step of `ProCacheClient.fetch` after a successful
HTTP GET (client.ts:629-650). `ttl` is `cache_ttl`, possibly undefined.
`shouldCache` is `cachingEnabled || (cacheWritesOffline === true && ttl > 0)`
(client.ts:631). With `shouldCache` and no `getTimestamp` callback the
client throws (client.ts:634-636). Otherwise it writes
`db.setTimestamp(routePattern, serverTimestamp)` (client.ts:643) and, when
`ttl > 0`, calls `this.cache.set(routePattern, specificKey, data, ttl)`
(client.ts:647) — with only four arguments, so the required `timestamp`
parameter of `CacheManager.set` receives `undefined`, modelled as `none`. -/
def fetchWriteBack (cfg : FetchCfg) (routePattern specificKey data : String)
    (ttl : Option Int) (serverTimestamp now : Int) (cm : CMState) :
    Except String CMState :=
  let ttlPos : Bool := match ttl with | some t => decide (t > 0) | none => false
  let shouldCache := cfg.cachingEnabled || (cfg.cacheWritesOffline && ttlPos)
  if shouldCache then
    if cfg.hasGetTimestamp then
      let cm1 : CMState := { cm with db := cm.db.setTimestamp routePattern serverTimestamp }
      if ttlPos then
        Except.ok (cm1.set routePattern specificKey data (ttl.getD 0) none now).1
      else Except.ok cm1
    else Except.error "getTimestamp callback missing"
  else Except.ok cm

def c1result : Except String CMState :=
  fetchWriteBack ⟨true, false, true⟩ "/u/{id}" "/u/1" "A" (some 60) 100 0 ⟨[], DBState.empty⟩

/-- Claim C1, evaluated at the failing input: after a successful GET with
caching enabled, `ttl = 60` and server timestamp 100, the bucket timestamp
written to PS is 100 as claimed, but the stored CacheEntry does NOT carry
the server timestamp: its timestamp field is undefined (`none`), in memory
and in the persistent store, because client.ts:647 omits the `timestamp`
argument of `CacheManager.set`. -/
theorem claim1_entry_timestamp_undefined :
    c1result.toOption.map (fun cm => cm.db.getTimestamp "/u/{id}") = some (some 100) ∧
    c1result.toOption.map (fun cm => (cm.memEntry "/u/{id}" "/u/1").map (fun e => e.timestamp))
      = some (some none) ∧
    c1result.toOption.map (fun cm => (cm.db.getCache "/u/{id}" "/u/1").map (fun e => e.timestamp))
      = some (some none) ∧
    some (some (none : Option Int)) ≠ some (some (some (100 : Int))) := by decide

/-! ## Fetch Orchestrator: request coalescing (client.ts:616-661) -/

/-- State of the deduplication machinery: `pendingFetches` maps a specific
key to the identifier of the registered promise; `httpGets` counts issued
HTTP GET requests; `nextId` supplies fresh promise identifiers. -/
structure FetchState where
  pending : List (String × Nat)
  httpGets : Nat
  nextId : Nat
deriving DecidableEq, Repr

/-- The synchronous segment of `ProCacheClient.fetch` from the
`pendingFetches` check to the registration (client.ts:616-661): if a promise
for `specificKey` is registered, return it unchanged; otherwise start the
network fetch (the async IIFE issues the HTTP GET before its first `await`,
in the same synchronous segment as the check and the registration — no other
fetch call can interleave) and register the new promise. -/
def fetchDedupStep (key : String) (st : FetchState) : Nat × FetchState :=
  match aget st.pending key with
  | some p => (p, st)
  | none =>
    (st.nextId,
     ⟨aset st.pending key st.nextId, st.httpGets + 1, st.nextId + 1⟩)

/-- The `finally` block (client.ts:656): when the request settles, the entry
is removed from `pendingFetches`. -/
def fetchSettle (key : String) (st : FetchState) : FetchState :=
  { st with pending := adel st.pending key }

/-- Claim C5: a fetch for a key with an in-flight fetch returns the
registered promise and issues no new HTTP GET; on a cold cache two
consecutive-segment fetches of the same key issue exactly one GET and share
one promise (hence resolve to identical data); settling removes the
`pendingFetches` entry. -/
theorem claim5_request_coalescing :
    (∀ (st : FetchState) (key : String) (p : Nat),
      aget st.pending key = some p →
      fetchDedupStep key st = (p, st)) ∧
    (∀ (st : FetchState) (key : String),
      aget st.pending key = none →
      (fetchDedupStep key (fetchDedupStep key st).2).1 = (fetchDedupStep key st).1 ∧
      (fetchDedupStep key st).2.httpGets = st.httpGets + 1 ∧
      (fetchDedupStep key (fetchDedupStep key st).2).2.httpGets = st.httpGets + 1) ∧
    (∀ (st : FetchState) (key : String),
      aget (fetchSettle key st).pending key = none) := by
  refine ⟨?_, ?_, ?_⟩
  · intro st key p h
    simp [fetchDedupStep, h]
  · intro st key h
    simp [fetchDedupStep, h, aget_aset_self]
  · intro st key
    simp [fetchSettle, aget_adel_self]

/-- Witness for C5: on a cold state, two fetches of `"/todos"` share promise
0 and issue exactly one HTTP GET; the promise of a registered key is reused;
settling clears the entry. -/
theorem claim5_witness :
    (fetchDedupStep "/todos" ⟨[("/todos", 7)], 1, 8⟩ = (7, ⟨[("/todos", 7)], 1, 8⟩)) ∧
    ((fetchDedupStep "/todos" (fetchDedupStep "/todos" ⟨[], 0, 0⟩).2).1
        = (fetchDedupStep "/todos" ⟨[], 0, 0⟩).1 ∧
     (fetchDedupStep "/todos" ⟨[], 0, 0⟩).2.httpGets = 1 ∧
     (fetchDedupStep "/todos" (fetchDedupStep "/todos" ⟨[], 0, 0⟩).2).2.httpGets = 1) ∧
    aget (fetchSettle "/todos" ⟨[("/todos", 0)], 1, 1⟩).pending "/todos" = none := by
  refine ⟨claim5_request_coalescing.1 ⟨[("/todos", 7)], 1, 8⟩ "/todos" 7 (by decide),
    ?_, claim5_request_coalescing.2.2 ⟨[("/todos", 0)], 1, 1⟩ "/todos"⟩
  have h := claim5_request_coalescing.2.1 ⟨[], 0, 0⟩ "/todos" (by decide)
  exact h

/-! ## Coordinator: upstream socket state (socket.ts) -/

/-- The `WebSocketClient` fields that the socket-lifecycle claims concern. -/
structure WSState where
  isCacheEnabled : Bool
  isExplicitlyClosed : Bool
  isLeader : Bool
  online : Bool
  wsStatus : ConnStatus
  reconnectAttempts : Nat
deriving DecidableEq, Repr

/-- `WebSocketClient.updateCacheEnabled` (socket.ts:101-115): sets
`isCacheEnabled := enabled`, `isExplicitlyClosed := !enabled`, and broadcasts
`ws-cache-enabled` carrying both values. -/
def WSState.updateCacheEnabled (st : WSState) (enabled : Bool) : WSState × BMsg :=
  ({ st with isCacheEnabled := enabled, isExplicitlyClosed := !enabled },
   BMsg.wsCacheEnabled enabled (!enabled))

/-- `WebSocketClient.scheduleReconnect` (socket.ts:797-826): skip when
explicitly closed, caching disabled, not leader, or offline; else the delay
is `min(5000 + floor(attempts/4)*5000, 20000)` ms and `attempts` is
incremented. Returns the scheduled delay (`none` when skipped). -/
def WSState.scheduleReconnect (st : WSState) : Option Nat × WSState :=
  if st.isExplicitlyClosed || !st.isCacheEnabled || !st.isLeader then (none, st)
  else if !st.online then (none, st)
  else
    let delayTier := st.reconnectAttempts / 4
    let delay := min (5000 + delayTier * 5000) 20000
    (some delay, { st with reconnectAttempts := st.reconnectAttempts + 1 })

/-- The reconnect portion of the `ws.onclose` handler (socket.ts:721-741):
it disables cache serving with `setIsCacheEnabled(false)` (socket.ts:731, a
synchronous signal write) and then, when not explicitly closed and still
Leader, calls `scheduleReconnect` (socket.ts:739) — the only call site of
`scheduleReconnect` in the program. Returns the scheduled delay (`none`
when nothing is scheduled) and the resulting state. -/
def WSState.oncloseReconnect (st : WSState) : Option Nat × WSState :=
  let ws1 : WSState :=
    { st with wsStatus := ConnStatus.disconnected, isCacheEnabled := false }
  if !ws1.isExplicitlyClosed && ws1.isLeader then ws1.scheduleReconnect
  else (none, ws1)

/-- Function-level behaviour of `scheduleReconnect` in isolation: were its
guard to pass, the delay would be `min(5000 + floor(n/4)*5000, 20000)` ms
with `attempts` incremented, and nothing is scheduled when explicitly
closed, offline, or not Leader. The cache-enabled branch never executes in
the program: the only call site, `ws.onclose`, runs right after
`isCacheEnabled` was set false (see the C8 theorem). -/
theorem scheduleReconnect_delay_formula :
    (∀ st : WSState,
      st.isExplicitlyClosed = false → st.isCacheEnabled = true →
      st.isLeader = true → st.online = true →
      st.scheduleReconnect =
        (some (min (5000 + st.reconnectAttempts / 4 * 5000) 20000),
         { st with reconnectAttempts := st.reconnectAttempts + 1 })) ∧
    (∀ st : WSState,
      st.isExplicitlyClosed = true ∨ st.online = false ∨ st.isLeader = false →
      st.scheduleReconnect.1 = none ∧
      st.scheduleReconnect.2.reconnectAttempts = st.reconnectAttempts) := by
  constructor
  · intro st h1 h2 h3 h4
    simp [WSState.scheduleReconnect, h1, h2, h3, h4]
  · intro st h
    rcases h with h | h | h
    · simp [WSState.scheduleReconnect, h]
    · simp [WSState.scheduleReconnect, h]
    · simp [WSState.scheduleReconnect, h]

/-- Claim C10: `updateCacheEnabled(enabled)` sets `isExplicitlyClosed` to the
negation of `enabled` and broadcasts `ws-cache-enabled` with both values;
after `updateCacheEnabled(false)` the client is marked explicitly closed, so
`scheduleReconnect` schedules nothing while the flag stands. -/
theorem claim10_updateCacheEnabled_marks_closed :
    ∀ (st : WSState) (enabled : Bool),
      (st.updateCacheEnabled enabled).1.isCacheEnabled = enabled ∧
      (st.updateCacheEnabled enabled).1.isExplicitlyClosed = !enabled ∧
      (st.updateCacheEnabled enabled).2 = BMsg.wsCacheEnabled enabled (!enabled) ∧
      (st.updateCacheEnabled false).1.scheduleReconnect
        = (none, (st.updateCacheEnabled false).1) := by
  intro st enabled
  refine ⟨rfl, rfl, rfl, ?_⟩
  simp [WSState.updateCacheEnabled, WSState.scheduleReconnect]

/-! ## Invalidation Engine: the Leader message path (socket.ts) -/

/-- Server-to-client messages the default handler recognizes
(socket.ts:873-955). `invalidate` with an object payload is a full sync;
`invalidateDelta` is a delta; anything else is a custom message. -/
inductive ServerMsg where
  | invalidate (data : List (String × Int))
  | invalidateDelta (data : List (String × Int))
  | custom (t : String)
deriving DecidableEq, Repr

/-- The Leader-side state touched by the upstream message path. -/
structure LeaderState where
  ws : WSState
  cm : CMState
deriving DecidableEq, Repr

/-- `WebSocketClient.invalidateAndNotify` (socket.ts:957-976): invalidate
the bucket in CacheManager (which broadcasts `cache-invalidate`), then
broadcast `ws-invalidate {key, timestamp}`. The focus-aware subscriber
dispatch in step 3 only fires callbacks and does not change this state. -/
def LeaderState.invalidateAndNotify (st : LeaderState) (key : String) (ts : Int) :
    LeaderState × List BMsg :=
  let r := st.cm.invalidate key
  ({ st with cm := r.1 }, r.2 ++ [BMsg.wsInvalidate key ts])

/-- The default timestamp guard of the full sync (socket.ts:899-907):
update unless the stored local timestamp is truthy (JS `&&`: 0 is falsy)
and `>=` the incoming one. -/
def shouldUpdateBucket (db : DBState) (key : String) (ts : Int) : Bool :=
  match db.getTimestamp key with
  | some l => !(decide (l ≠ 0) && decide (l ≥ ts))
  | none => true

/-- Loop body of the full-sync server update (socket.ts:898-913): apply the
timestamp guard, then invalidate-and-notify. -/
def syncUpdateStep (acc : LeaderState × List BMsg) (kv : String × Int) :
    LeaderState × List BMsg :=
  if shouldUpdateBucket acc.1.cm.db kv.1 kv.2 then
    let r := acc.1.invalidateAndNotify kv.1 kv.2
    (r.1, acc.2 ++ r.2)
  else acc

/-- Loop body of the full-sync deletion pass (socket.ts:915-924): delete any
local bucket not in the server list, stamped with the current time. -/
def syncDeleteStep (serverKeys : List String) (now : Int)
    (acc : LeaderState × List BMsg) (b : String) : LeaderState × List BMsg :=
  if serverKeys.contains b then acc
  else
    let r := acc.1.invalidateAndNotify b now
    (r.1, acc.2 ++ r.2)

/-- Loop body of the delta update (socket.ts:934-942). -/
def deltaStep (acc : LeaderState × List BMsg) (kv : String × Int) :
    LeaderState × List BMsg :=
  let r := acc.1.invalidateAndNotify kv.1 kv.2
  (r.1, acc.2 ++ r.2)

/-- `WebSocketClient.defaultMessageHandler` (socket.ts:873-955), with the
default `shouldInvalidate` and no custom middleware. Returns the new state
and the cross-tab broadcasts posted while processing, in order. The
global-invalidation and per-key subscriber callbacks fire on the side and do
not change this state. On an empty full sync the code runs
`cacheManager.clear()` then `db.clearAll()` (socket.ts:884-885), whose net
effect is empty memory and both stores cleared. The deletion pass reads
`getAllBucketKeys` after the update pass has run (socket.ts:916). -/
def LeaderState.defaultMessageHandler (st : LeaderState) (msg : ServerMsg) (now : Int) :
    LeaderState × List BMsg :=
  match msg with
  | .invalidate data =>
    if data.isEmpty then
      let st1 : LeaderState := { st with cm := ⟨[], st.cm.db.clearAll⟩ }
      if !st1.ws.isExplicitlyClosed then
        let r := st1.ws.updateCacheEnabled true
        ({ st1 with ws := r.1 }, [BMsg.wsInvalidateAll now, r.2])
      else (st1, [BMsg.wsInvalidateAll now])
    else
      let acc1 := data.foldl syncUpdateStep (st, [])
      let serverKeys := data.map (fun kv => kv.1)
      let acc2 := (acc1.1.cm.db.getAllBucketKeys).foldl (syncDeleteStep serverKeys now) acc1
      if !acc2.1.ws.isExplicitlyClosed then
        let r := acc2.1.ws.updateCacheEnabled true
        ({ acc2.1 with ws := r.1 }, acc2.2 ++ [r.2])
      else acc2
  | .invalidateDelta data => data.foldl deltaStep (st, [])
  | .custom _ => (st, [BMsg.wsCustom])

/- Note on the empty full sync (socket.ts:883-885): the code runs
`cacheManager.clear()` followed by `db.clearAll()`, whose net effect on this
state is empty memory and both stores cleared, as modelled above. -/

/-- Events on the Leader relevant to the enable-gating claim: the upstream
socket callbacks `onopen` (socket.ts:709-719), `onclose` (721-741),
`onerror` (743-757), and an upstream message reaching the default handler. -/
inductive LEvent where
  | socketOpen
  | socketClose
  | socketError
  | serverMsg (m : ServerMsg) (now : Int)
deriving DecidableEq, Repr

/-- One Leader step. `onopen` records the status and resets the attempt
counter — it does not touch `isCacheEnabled` (socket.ts:715-718). `onclose`
and `onerror` disable cache serving and broadcast it; `onclose` additionally
schedules a reconnect when not explicitly closed and still Leader. -/
def LeaderState.step (st : LeaderState) (ev : LEvent) : LeaderState × List BMsg :=
  match ev with
  | .socketOpen =>
    ({ st with ws := { st.ws with wsStatus := ConnStatus.connected, reconnectAttempts := 0 } },
     [BMsg.wsStatus ConnStatus.connected])
  | .socketClose =>
    let ws1 := { st.ws with wsStatus := ConnStatus.disconnected, isCacheEnabled := false }
    let ws2 := if !ws1.isExplicitlyClosed && ws1.isLeader then ws1.scheduleReconnect.2 else ws1
    ({ st with ws := ws2 },
     [BMsg.wsStatus ConnStatus.disconnected, BMsg.wsCacheEnabled false ws1.isExplicitlyClosed])
  | .socketError =>
    ({ st with ws := { st.ws with wsStatus := ConnStatus.error, isCacheEnabled := false } },
     [BMsg.wsStatus ConnStatus.error, BMsg.wsCacheEnabled false st.ws.isExplicitlyClosed])
  | .serverMsg m now => st.defaultMessageHandler m now

/-- Whether an event is a full-sync message (`invalidate` with object
payload). -/
def LEvent.isFullSync : LEvent → Bool
  | .serverMsg (.invalidate _) _ => true
  | _ => false

/-- Run a sequence of Leader events, discarding broadcasts. -/
def LeaderState.run (st : LeaderState) (evs : List LEvent) : LeaderState :=
  evs.foldl (fun s e => (s.step e).1) st

theorem invalidateAndNotify_ws (st : LeaderState) (key : String) (ts : Int) :
    (st.invalidateAndNotify key ts).1.ws = st.ws := rfl

theorem foldl_ws_eq {β : Type} (f : LeaderState × List BMsg → β → LeaderState × List BMsg)
    (hf : ∀ acc b, ((f acc b).1).ws = acc.1.ws) (l : List β)
    (acc : LeaderState × List BMsg) :
    ((l.foldl f acc).1).ws = acc.1.ws := by
  induction l generalizing acc with
  | nil => rfl
  | cons b l ih => rw [List.foldl_cons, ih, hf]

theorem syncUpdateStep_ws (acc : LeaderState × List BMsg) (kv : String × Int) :
    ((syncUpdateStep acc kv).1).ws = acc.1.ws := by
  unfold syncUpdateStep
  split
  · exact invalidateAndNotify_ws acc.1 kv.1 kv.2
  · rfl

theorem syncDeleteStep_ws (serverKeys : List String) (now : Int)
    (acc : LeaderState × List BMsg) (b : String) :
    ((syncDeleteStep serverKeys now acc b).1).ws = acc.1.ws := by
  unfold syncDeleteStep
  split
  · rfl
  · exact invalidateAndNotify_ws acc.1 b now

theorem deltaStep_ws (acc : LeaderState × List BMsg) (kv : String × Int) :
    ((deltaStep acc kv).1).ws = acc.1.ws :=
  invalidateAndNotify_ws acc.1 kv.1 kv.2

theorem handler_fullSync_ws_open (st : LeaderState) (data : List (String × Int)) (now : Int)
    (hc : st.ws.isExplicitlyClosed = false) :
    ((st.defaultMessageHandler (ServerMsg.invalidate data) now).1).ws
      = (st.ws.updateCacheEnabled true).1 := by
  unfold LeaderState.defaultMessageHandler
  cases hemp : data.isEmpty with
  | true => simp [hemp, hc, WSState.updateCacheEnabled]
  | false =>
    have h1 : ((data.foldl syncUpdateStep (st, [])).1).ws = st.ws :=
      foldl_ws_eq _ syncUpdateStep_ws data (st, [])
    have h2 : ((((data.foldl syncUpdateStep (st, [])).1).cm.db.getAllBucketKeys).foldl
        (syncDeleteStep (data.map (fun kv => kv.1)) now)
        (data.foldl syncUpdateStep (st, []))).1.ws = st.ws := by
      rw [foldl_ws_eq _ (syncDeleteStep_ws _ _) _ _, h1]
    simp [hemp, h2, hc, WSState.updateCacheEnabled]

theorem handler_fullSync_ws_closed (st : LeaderState) (data : List (String × Int)) (now : Int)
    (hc : st.ws.isExplicitlyClosed = true) :
    ((st.defaultMessageHandler (ServerMsg.invalidate data) now).1).ws = st.ws := by
  unfold LeaderState.defaultMessageHandler
  cases hemp : data.isEmpty with
  | true => simp [hemp, hc]
  | false =>
    have h1 : ((data.foldl syncUpdateStep (st, [])).1).ws = st.ws :=
      foldl_ws_eq _ syncUpdateStep_ws data (st, [])
    have h2 : ((((data.foldl syncUpdateStep (st, [])).1).cm.db.getAllBucketKeys).foldl
        (syncDeleteStep (data.map (fun kv => kv.1)) now)
        (data.foldl syncUpdateStep (st, []))).1.ws = st.ws := by
      rw [foldl_ws_eq _ (syncDeleteStep_ws _ _) _ _, h1]
    simp [hemp, h2, hc]

theorem handler_delta_ws (st : LeaderState) (data : List (String × Int)) (now : Int) :
    ((st.defaultMessageHandler (ServerMsg.invalidateDelta data) now).1).ws = st.ws :=
  foldl_ws_eq _ deltaStep_ws data (st, [])

theorem scheduleReconnect_isCacheEnabled (ws : WSState) :
    ws.scheduleReconnect.2.isCacheEnabled = ws.isCacheEnabled := by
  unfold WSState.scheduleReconnect
  split_ifs <;> rfl

theorem leader_open_preserves_enabled (st : LeaderState) :
    ((st.step LEvent.socketOpen).1).ws.isCacheEnabled = st.ws.isCacheEnabled := rfl

theorem leader_enable_requires_fullSync (st : LeaderState) (ev : LEvent)
    (h0 : st.ws.isCacheEnabled = false)
    (h1 : ((st.step ev).1).ws.isCacheEnabled = true) :
    ev.isFullSync = true ∧ st.ws.isExplicitlyClosed = false := by
  cases ev with
  | socketOpen =>
    rw [leader_open_preserves_enabled, h0] at h1
    cases h1
  | socketClose =>
    exfalso
    have hfalse : ((st.step LEvent.socketClose).1).ws.isCacheEnabled = false := by
      unfold LeaderState.step
      dsimp only
      split
      · rw [scheduleReconnect_isCacheEnabled]
      · rfl
    rw [hfalse] at h1
    cases h1
  | socketError =>
    exfalso
    rw [show ((st.step LEvent.socketError).1).ws.isCacheEnabled = false from rfl] at h1
    cases h1
  | serverMsg m now =>
    cases m with
    | invalidate data =>
      refine ⟨rfl, ?_⟩
      cases hc : st.ws.isExplicitlyClosed with
      | false => rfl
      | true =>
        exfalso
        have hws := handler_fullSync_ws_closed st data now hc
        have hstep : (st.step (LEvent.serverMsg (ServerMsg.invalidate data) now)).1
            = (st.defaultMessageHandler (ServerMsg.invalidate data) now).1 := rfl
        rw [hstep, hws, h0] at h1
        cases h1
    | invalidateDelta data =>
      exfalso
      have hws := handler_delta_ws st data now
      have hstep : (st.step (LEvent.serverMsg (ServerMsg.invalidateDelta data) now)).1
          = (st.defaultMessageHandler (ServerMsg.invalidateDelta data) now).1 := rfl
      rw [hstep, hws, h0] at h1
      cases h1
    | custom t =>
      exfalso
      rw [show ((st.step (LEvent.serverMsg (ServerMsg.custom t) now)).1).ws.isCacheEnabled
          = st.ws.isCacheEnabled from rfl, h0] at h1
      cases h1

theorem leader_run_keeps_disabled (st : LeaderState) (evs : List LEvent)
    (h0 : st.ws.isCacheEnabled = false)
    (hevs : ∀ e ∈ evs, e.isFullSync = false) :
    (st.run evs).ws.isCacheEnabled = false := by
  induction evs generalizing st with
  | nil => exact h0
  | cons e evs ih =>
    have he : e.isFullSync = false := hevs e (List.mem_cons_self e evs)
    have hrun : st.run (e :: evs) = ((st.step e).1).run evs := rfl
    rw [hrun]
    cases hb : ((st.step e).1).ws.isCacheEnabled with
    | false => exact ih _ hb (fun x hx => hevs x (List.mem_cons_of_mem _ hx))
    | true =>
      obtain ⟨hfs, _⟩ := leader_enable_requires_fullSync st e h0 hb
      rw [he] at hfs
      cases hfs

/-- Claim C6: the `onopen` transition to `connected` never enables the cache;
from a disabled cache, the only Leader socket-path event that makes
`isCacheEnabled` true is a full-sync message, and only when not explicitly
closed; hence a cache disabled at socket open stays disabled across any
event sequence containing no full-sync message. -/
theorem claim6_cache_enabled_only_after_full_sync :
    (∀ st : LeaderState,
      ((st.step LEvent.socketOpen).1).ws.isCacheEnabled = st.ws.isCacheEnabled) ∧
    (∀ (st : LeaderState) (ev : LEvent),
      st.ws.isCacheEnabled = false → ((st.step ev).1).ws.isCacheEnabled = true →
      ev.isFullSync = true ∧ st.ws.isExplicitlyClosed = false) ∧
    (∀ (st : LeaderState) (evs : List LEvent),
      st.ws.isCacheEnabled = false → (∀ e ∈ evs, e.isFullSync = false) →
      (st.run evs).ws.isCacheEnabled = false) :=
  ⟨leader_open_preserves_enabled, leader_enable_requires_fullSync,
   leader_run_keeps_disabled⟩

def c6st : LeaderState :=
  ⟨⟨false, false, true, true, ConnStatus.connected, 0⟩, ⟨[], DBState.empty⟩⟩

/-- Witness for C6 at a concrete Leader state with the cache disabled:
`onopen` leaves the cache disabled; processing a full sync is the enabling
event; opening the socket and then processing a delta leaves the cache
disabled. -/
theorem claim6_witness :
    ((c6st.step LEvent.socketOpen).1).ws.isCacheEnabled = c6st.ws.isCacheEnabled ∧
    ((LEvent.serverMsg (ServerMsg.invalidate [("X", 5)]) 0).isFullSync = true ∧
      c6st.ws.isExplicitlyClosed = false) ∧
    (c6st.run [LEvent.socketOpen,
      LEvent.serverMsg (ServerMsg.invalidateDelta [("X", 5)]) 0]).ws.isCacheEnabled
      = false := by
  refine ⟨claim6_cache_enabled_only_after_full_sync.1 c6st, ?_, ?_⟩
  · exact claim6_cache_enabled_only_after_full_sync.2.1 c6st
      (LEvent.serverMsg (ServerMsg.invalidate [("X", 5)]) 0) (by decide) (by decide)
  · exact claim6_cache_enabled_only_after_full_sync.2.2 c6st
      [LEvent.socketOpen, LEvent.serverMsg (ServerMsg.invalidateDelta [("X", 5)]) 0]
      (by decide) (by decide)

/-- Claim C8, evaluated on the code: on a non-explicit close of the Leader
socket, `ws.onclose` disables cache serving (socket.ts:731) before its call
to `scheduleReconnect` (socket.ts:739), whose guard `!this.isCacheEnabled()`
(socket.ts:799) therefore always trips — no reconnect is ever scheduled and
`reconnectAttempts` is never incremented, for every state; in particular at
the failing input (Leader, online, not explicitly closed, attempts 0), where
the claim expects a 5000 ms delay and attempts 1, and likewise through the
full `socketClose` step of the Leader model. -/
theorem claim8_reconnect_never_scheduled :
    (∀ st : WSState,
      st.oncloseReconnect.1 = none ∧
      st.oncloseReconnect.2.reconnectAttempts = st.reconnectAttempts) ∧
    (WSState.oncloseReconnect ⟨true, false, true, true, ConnStatus.connected, 0⟩
      = (none, ⟨false, false, true, true, ConnStatus.disconnected, 0⟩)) ∧
    (∀ st : LeaderState,
      ((st.step LEvent.socketClose).1).ws.reconnectAttempts
        = st.ws.reconnectAttempts) := by
  refine ⟨?_, by decide, ?_⟩
  · intro st
    unfold WSState.oncloseReconnect
    dsimp only
    split
    · constructor
      · simp [WSState.scheduleReconnect]
      · simp [WSState.scheduleReconnect]
    · exact ⟨rfl, rfl⟩
  · intro st
    unfold LeaderState.step
    dsimp only
    split
    · simp [WSState.scheduleReconnect]
    · rfl

/-! ## Claim C3: the S3 full-sync scenario -/

/-- S3 initial persistent store: buckets X and Y with timestamps 50 and 60,
and one cached entry each. -/
def c3db : DBState :=
  ⟨[("X", 50), ("Y", 60)],
   [("X", [("/x/1", ⟨"x", 1000000, some 50⟩)]),
    ("Y", [("/y/1", ⟨"y", 1000000, some 60⟩)])]⟩

/-- S3 initial Leader state: the Leader tab, online, cache disabled pending
the sync, memory mirroring the persistent store. -/
def c3st : LeaderState :=
  ⟨⟨false, false, true, true, ConnStatus.connected, 0⟩, ⟨c3db.cacheStore, c3db⟩⟩

/-- Processing `{type: invalidate, data: {X: 100}}` at current time 999. -/
def c3res : LeaderState × List BMsg :=
  c3st.defaultMessageHandler (ServerMsg.invalidate [("X", 100)]) 999

/-- Counterexample to C3 as stated: after the Leader processes the full sync
`{X: 100}`, the persistent store does NOT hold `X` at 100 — the timestamp
namespace still maps X to 50 (full-sync processing never calls
`setTimestamp`; bucket timestamps advance only on fetch write-back), and the
cache namespace no longer contains an X bucket at all (X was invalidated for
refetch). Under neither reading of PS does the claimed post-state
`PS = {X: 100}` hold. -/
theorem claim3_counterexample :
    c3res.1.cm.db.getTimestamp "X" = some 50 ∧
    c3res.1.cm.db.getTimestamp "X" ≠ some 100 ∧
    aget c3res.1.cm.db.cacheStore "X" = none := by decide

/-- Claim C3 (amended): after the Leader processes the full sync `{X: 100}`
over local buckets `{X: 50, Y: 60}`, the cache namespace of PS contains
neither X (invalidated for refetch) nor Y (sync-deleted), the timestamp
namespace is unchanged at `{X: 50, Y: 60}`, `cacheEnabled` is true, no
`ws-invalidate-all` is broadcast, and exactly two `ws-invalidate` broadcasts
are sent: X with timestamp 100 and Y with the current time. -/
theorem claim3_amended_full_sync_effect :
    c3res.1.cm.db.timestamps = [("X", 50), ("Y", 60)] ∧
    aget c3res.1.cm.db.cacheStore "X" = none ∧
    aget c3res.1.cm.db.cacheStore "Y" = none ∧
    aget c3res.1.cm.mem "X" = none ∧
    aget c3res.1.cm.mem "Y" = none ∧
    c3res.1.ws.isCacheEnabled = true ∧
    c3res.2.filter BMsg.isWsInvalidateAll = [] ∧
    c3res.2.filter BMsg.isWsInvalidate
      = [BMsg.wsInvalidate "X" 100, BMsg.wsInvalidate "Y" 999] := by decide

/-! ## Coordinator: multiple tabs, leader election and the upstream socket

A cross-tab model for the at-most-one-socket claim. Each tab carries the
`isLeader` flag, whether its upstream socket is open, and the
`lastLeaderHeartbeat` it tracks. The shared localStorage slot
(`ws-leader-tab` / `ws-leader-heartbeat`) and the set of in-flight
`leader-claim` broadcasts (BroadcastChannel delivery is asynchronous:
a posted message is processed by the other tabs in a later event-loop turn)
are global. Event times are explicit; socket opening is modelled as
immediate, which only shortens the window the counterexample exhibits. -/

structure Tab where
  isLeader : Bool
  wsOpen : Bool
  lastLeaderHeartbeat : Int
deriving DecidableEq, Repr

structure MultiTab where
  tabs : List (Nat × Tab)
  slot : Option (Nat × Int)
  inflightClaims : List (Nat × Nat)
deriving DecidableEq, Repr

def LEADER_TIMEOUT : Int := 5000

def hasPair (l : List (Nat × Nat)) (x : Nat × Nat) : Bool :=
  l.any (fun p => decide (p = x))

def erasePair : List (Nat × Nat) → Nat × Nat → List (Nat × Nat)
  | [], _ => []
  | p :: l, x => if p = x then l else p :: erasePair l x

/-- `connectWebSocket` (socket.ts:668-684): a tab that is not the Leader
refuses to open the upstream socket (socket.ts:676-679) and warns. The
`isExplicitlyClosed` guard (socket.ts:670-673) only further restricts
opening and is not modelled here. -/
def connectAttempt (sys : MultiTab) (t : Nat) : MultiTab :=
  match aget sys.tabs t with
  | none => sys
  | some tab =>
    if !tab.isLeader then sys
    else { sys with tabs := aset sys.tabs t { tab with wsOpen := true } }

def othersOf (sys : MultiTab) (t : Nat) : List Nat :=
  (sys.tabs.map (fun p => p.1)).filter (fun x => decide (x ≠ t))

/-- The election-success branch of `becomeLeader` (socket.ts:583-633) as one
atomic event (the tab processed no foreign `leader-claim` during its 150 ms
wait — such claims may still be in flight). Its guard is the double-check of
the shared slot (socket.ts:586-600): the tab wins only if the slot is empty,
its own, or its heartbeat is stale (`now - heartbeat >= LEADER_TIMEOUT`).
On winning: set `isLeader`, write the slot, broadcast `leader-claim` to the
other tabs, and connect the upstream socket. -/
def electionWin (sys : MultiTab) (t : Nat) (now : Int) : MultiTab :=
  match aget sys.tabs t with
  | none => sys
  | some tab =>
    if tab.isLeader then sys
    else
      let staleOrFree : Bool :=
        match sys.slot with
        | none => true
        | some li => decide (li.1 = t) || decide (now - li.2 ≥ LEADER_TIMEOUT)
      if staleOrFree then
        { tabs := aset sys.tabs t { tab with isLeader := true, wsOpen := true },
          slot := some (t, now),
          inflightClaims := sys.inflightClaims ++ (othersOf sys t).map (fun r => (t, r)) }
      else sys

/-- The Leader heartbeat tick (socket.ts:623-628): refresh the shared slot
and broadcast another `leader-claim`. -/
def heartbeatTick (sys : MultiTab) (t : Nat) (now : Int) : MultiTab :=
  match aget sys.tabs t with
  | none => sys
  | some tab =>
    if tab.isLeader then
      { sys with
          slot := some (t, now),
          inflightClaims := sys.inflightClaims ++ (othersOf sys t).map (fun r => (t, r)) }
    else sys

/-- Delivery of one in-flight `leader-claim` from sender `s` to recipient
`r` (`handleBroadcast`, socket.ts:478-503). A claim from a foreign tab
refreshes the tracked heartbeat; a leader receiving it steps down
(socket.ts:484-488, 650-666: clear leadership and its own slot, disconnect
the socket); a non-leader holding a socket closes the orphan
(socket.ts:498-502). -/
def deliverClaim (sys : MultiTab) (s r : Nat) (now : Int) : MultiTab :=
  if !hasPair sys.inflightClaims (s, r) then sys
  else
    let inflight1 := erasePair sys.inflightClaims (s, r)
    match aget sys.tabs r with
    | none => { sys with inflightClaims := inflight1 }
    | some tab =>
      if s = r then { sys with inflightClaims := inflight1 }
      else
        let tab1 : Tab := { tab with lastLeaderHeartbeat := now }
        if tab1.isLeader then
          let slot1 := match sys.slot with
            | some li => if li.1 = r then none else sys.slot
            | none => none
          { tabs := aset sys.tabs r { tab1 with isLeader := false, wsOpen := false },
            slot := slot1, inflightClaims := inflight1 }
        else
          { tabs := aset sys.tabs r { tab1 with wsOpen := false },
            slot := sys.slot, inflightClaims := inflight1 }

inductive MEvent where
  | connect (t : Nat)
  | election (t : Nat) (now : Int)
  | heartbeat (t : Nat) (now : Int)
  | deliver (s r : Nat) (now : Int)
deriving DecidableEq, Repr

def MultiTab.step (sys : MultiTab) (ev : MEvent) : MultiTab :=
  match ev with
  | .connect t => connectAttempt sys t
  | .election t now => electionWin sys t now
  | .heartbeat t now => heartbeatTick sys t now
  | .deliver s r now => deliverClaim sys s r now

def MultiTab.run (sys : MultiTab) (evs : List MEvent) : MultiTab :=
  evs.foldl MultiTab.step sys

/-- Number of tabs with an open upstream socket. -/
def openSocketCount (sys : MultiTab) : Nat :=
  (sys.tabs.filter (fun p => p.2.wsOpen)).length

/-- Two fresh tabs, empty slot, nothing in flight. -/
def c7sys : MultiTab :=
  ⟨[(1, ⟨false, false, 0⟩), (2, ⟨false, false, 0⟩)], none, []⟩

/-- The overlap trace: tab 1 wins the election at time 0 and opens the
socket; its claim reaches tab 2 at time 10; tab 1 then never refreshes the
slot (a frozen or throttled leader tab — exactly the failure LEADER_TIMEOUT
exists to recover from), so at time 6000 tab 2 times out, passes the
double-check against the stale slot, becomes leader and opens the socket,
with its own leader-claim still in flight towards tab 1. -/
def c7trace : List MEvent :=
  [MEvent.election 1 0, MEvent.deliver 1 2 10, MEvent.election 2 6000]

/-- Counterexample to C7 as stated: after `c7trace`, both tab 1 and tab 2
hold an open upstream socket at the same instant — at-most-one-open-socket
is not an instantaneous invariant (delivering the in-flight claim restores
it, but only later). -/
theorem claim7_counterexample :
    openSocketCount (c7sys.run c7trace) = 2 ∧
    (aget (c7sys.run c7trace).tabs 1).map (fun tb => tb.wsOpen) = some true ∧
    (aget (c7sys.run c7trace).tabs 2).map (fun tb => tb.wsOpen) = some true := by decide

/-- Claim C7 (amended): a tab that is not the Leader never opens the
upstream socket (`connectWebSocket` refuses), and a tab processing a
`leader-claim` from another tab always ends with its socket closed (a
leader steps down; a non-leader closes the orphan) — so at most one open
socket is an eventual guarantee, restored as the claim broadcasts are
delivered, not an instantaneous one. -/
theorem claim7_amended_socket_ownership :
    (∀ (sys : MultiTab) (t : Nat) (tab : Tab),
      aget sys.tabs t = some tab → tab.isLeader = false →
      connectAttempt sys t = sys) ∧
    (∀ (sys : MultiTab) (s r : Nat) (now : Int) (tab : Tab),
      s ≠ r → aget sys.tabs r = some tab →
      hasPair sys.inflightClaims (s, r) = true →
      (aget (deliverClaim sys s r now).tabs r).map (fun tb => tb.wsOpen) = some false) := by
  constructor
  · intro sys t tab h hl
    simp [connectAttempt, h, hl]
  · intro sys s r now tab hsr h hin
    unfold deliverClaim
    rw [hin]
    simp only [Bool.not_true, Bool.false_eq_true, if_false]
    rw [h]
    simp only [hsr, if_false]
    cases hl : tab.isLeader with
    | true => simp [hl, aget_aset_self]
    | false => simp [hl, aget_aset_self]

/-- Witness for the amended C7: in the post-trace state, the non-leader
tab 1 cannot reopen a socket by calling `connectWebSocket`, and delivering
the in-flight claim from tab 2 to tab 1 closes tab 1's socket. -/
theorem claim7_witness :
    connectAttempt
      (⟨[(1, ⟨false, true, 0⟩), (2, ⟨true, true, 6000⟩)], some (2, 6000), [(2, 1)]⟩ : MultiTab) 1
      = ⟨[(1, ⟨false, true, 0⟩), (2, ⟨true, true, 6000⟩)], some (2, 6000), [(2, 1)]⟩ ∧
    (aget (deliverClaim
      (⟨[(1, ⟨true, true, 0⟩), (2, ⟨true, true, 6000⟩)], some (2, 6000), [(2, 1)]⟩ : MultiTab)
      2 1 6100).tabs 1).map (fun tb => tb.wsOpen) = some false := by
  constructor
  · exact claim7_amended_socket_ownership.1 _ 1 ⟨false, true, 0⟩ (by decide) (by decide)
  · exact claim7_amended_socket_ownership.2 _ 2 1 6100 ⟨true, true, 0⟩
      (by decide) (by decide) (by decide)

end ProCache
